import Mathlib

/-!
# Verification of the subscriptions repository (task_effective_mobile)

A shallow embedding of `internal/repositories/subscriptions.go`:
the Postgres-backed subscription store (CreateSub, GetSub, UpdateSub,
DeleteSub, GetTotalCost) modelled as pure functions over an explicit
store state, with the behaviour of the database collaborator (INSERT ...
RETURNING id, UPDATE/DELETE ... WHERE id, SELECT with a WHERE clause
built from optional filters, rows-affected counts) made explicit.

Dates cross the boundary as `MM-YYYY` text; the Go code parses them with
`time.Parse("01-2006", s)` and renders them with `Format("01-2006")`.
Stored dates always have day-of-month 1, so the date order of the database
coincides with lexicographic (year, month) order, which is how `MY.le`
models the SQL comparisons `start_date <= $n` / `end_date >= $n`.
-/

set_option autoImplicit false

deriving instance DecidableEq for Except

namespace Subs

/-- A month-year value: what `time.Parse("01-2006", s)` produces
(the day component is always normalized to 1 and never observed). -/
structure MY where
  month : Nat
  year : Nat
deriving DecidableEq

/-- The value of an ASCII digit character, `none` otherwise.
Mirrors the Go helper `isDigit` and the digit-subtraction arithmetic
used by `time.Parse` on the month and year fields (Go only accepts
ASCII digits there). -/
def digitVal (c : Char) : Option Nat :=
  if c = '0' then some 0
  else if c = '1' then some 1
  else if c = '2' then some 2
  else if c = '3' then some 3
  else if c = '4' then some 4
  else if c = '5' then some 5
  else if c = '6' then some 6
  else if c = '7' then some 7
  else if c = '8' then some 8
  else if c = '9' then some 9
  else none

/-- The ASCII digit character for a value 0..9 (values ≥ 9 all render
as `'9'`; the functions below only apply it to values < 10). -/
def toDigitChar (n : Nat) : Char :=
  if n = 0 then '0'
  else if n = 1 then '1'
  else if n = 2 then '2'
  else if n = 3 then '3'
  else if n = 4 then '4'
  else if n = 5 then '5'
  else if n = 6 then '6'
  else if n = 7 then '7'
  else if n = 8 then '8'
  else '9'

/-- The Go function `time.Parse("01-2006", s)` restricted to the month-year result.
The layout `01` (zero-padded month) demands exactly two ASCII digits,
`-` must match literally, `2006` demands exactly four ASCII digits, any
trailing text is an error, and the month must lie in 1..12
("month out of range"). Hence exactly the canonical 7-character
`MM-YYYY` strings parse. -/
def parseMY (s : String) : Option MY :=
  match s.data with
  | [c1, c2, c3, c4, c5, c6, c7] =>
    match digitVal c1, digitVal c2, digitVal c4, digitVal c5, digitVal c6, digitVal c7 with
    | some d1, some d2, some d4, some d5, some d6, some d7 =>
      if c3 = '-' then
        let m := d1 * 10 + d2
        if 1 ≤ m ∧ m ≤ 12 then
          some ⟨m, d4 * 1000 + d5 * 100 + d6 * 10 + d7⟩
        else none
      else none
    | _, _, _, _, _, _ => none
  | _ => none

/-- The Go call `t.Format("01-2006")` on a stored date: zero-padded two-digit
month and four-digit year. All stored dates come from `parseMY`, so
month ≤ 12 and year ≤ 9999 and the digit decomposition below is exactly
what Go renders. -/
def formatMY (d : MY) : String :=
  String.mk [toDigitChar (d.month / 10), toDigitChar (d.month % 10), '-',
             toDigitChar (d.year / 1000), toDigitChar (d.year / 100 % 10),
             toDigitChar (d.year / 10 % 10), toDigitChar (d.year % 10)]

/-- The order the database uses on stored dates (`start_date <= $n`,
`end_date >= $n`): all stored dates have day 1, so date order is
lexicographic on (year, month). -/
def MY.le (a b : MY) : Bool :=
  decide (a.year < b.year ∨ (a.year = b.year ∧ a.month ≤ b.month))

theorem digitVal_eq_some {c : Char} {k : Nat} (h : digitVal c = some k) :
    k < 10 ∧ toDigitChar k = c := by
  unfold digitVal at h
  split_ifs at h with h0 h1 h2 h3 h4 h5 h6 h7 h8 h9
  all_goals subst_vars
  all_goals injection h with hk
  all_goals subst hk
  all_goals decide

/-- Parse-then-format round trip: every string accepted by `parseMY`
is reproduced exactly by `formatMY`. -/
theorem formatMY_parseMY {s : String} {d : MY} (h : parseMY s = some d) :
    formatMY d = s := by
  obtain ⟨data⟩ := s
  match data with
  | [c1, c2, c3, c4, c5, c6, c7] =>
    simp only [parseMY] at h
    cases h1 : digitVal c1 with
    | none => simp [h1] at h
    | some d1 =>
    cases h2 : digitVal c2 with
    | none => simp [h1, h2] at h
    | some d2 =>
    cases h4 : digitVal c4 with
    | none => simp [h1, h2, h4] at h
    | some d4 =>
    cases h5 : digitVal c5 with
    | none => simp [h1, h2, h4, h5] at h
    | some d5 =>
    cases h6 : digitVal c6 with
    | none => simp [h1, h2, h4, h5, h6] at h
    | some d6 =>
    cases h7 : digitVal c7 with
    | none => simp [h1, h2, h4, h5, h6, h7] at h
    | some d7 =>
    simp only [h1, h2, h4, h5, h6, h7] at h
    split_ifs at h with hdash hm
    obtain ⟨hd1, hc1⟩ := digitVal_eq_some h1
    obtain ⟨hd2, hc2⟩ := digitVal_eq_some h2
    obtain ⟨hd4, hc4⟩ := digitVal_eq_some h4
    obtain ⟨hd5, hc5⟩ := digitVal_eq_some h5
    obtain ⟨hd6, hc6⟩ := digitVal_eq_some h6
    obtain ⟨hd7, hc7⟩ := digitVal_eq_some h7
    injection h with h
    subst h
    simp only [formatMY]
    have e1 : (d1 * 10 + d2) / 10 = d1 := by omega
    have e2 : (d1 * 10 + d2) % 10 = d2 := by omega
    have e4 : (d4 * 1000 + d5 * 100 + d6 * 10 + d7) / 1000 = d4 := by omega
    have e5 : (d4 * 1000 + d5 * 100 + d6 * 10 + d7) / 100 % 10 = d5 := by omega
    have e6 : (d4 * 1000 + d5 * 100 + d6 * 10 + d7) / 10 % 10 = d6 := by omega
    have e7 : (d4 * 1000 + d5 * 100 + d6 * 10 + d7) % 10 = d7 := by omega
    rw [e1, e2, e4, e5, e6, e7, hc1, hc2, hc4, hc5, hc6, hc7, hdash]
  | [] => simp [parseMY] at h
  | [_] => simp [parseMY] at h
  | [_, _] => simp [parseMY] at h
  | [_, _, _] => simp [parseMY] at h
  | [_, _, _, _] => simp [parseMY] at h
  | [_, _, _, _, _] => simp [parseMY] at h
  | [_, _, _, _, _, _] => simp [parseMY] at h
  | _ :: _ :: _ :: _ :: _ :: _ :: _ :: _ :: _ => simp [parseMY] at h

/-- Mirror of `entities.Subscription` (internal/entities): the API shape,
with dates rendered as `MM-YYYY` text and an absent end date as `""`. -/
structure Subscription where
  ID : Int
  ServiceName : String
  Price : Int
  UserID : String
  StartDate : String
  EndDate : String
deriving DecidableEq

/-- The error outcomes the repository functions produce, one constructor
per `fmt.Errorf` site kind in subscriptions.go (the functions share
constructors when the message differs only in its prefix). -/
inductive SubError where
  | priceNegative
  | invalidStartDate
  | invalidEndDate
  | startDateEmpty
  | endDateEmpty
  | noFieldsToUpdate
  | notFound (id : Int)
deriving DecidableEq

/-- The error taxonomy of the spec. `persistence` is never produced in this
model because the database collaborator is assumed to execute each
statement successfully. -/
inductive ErrClass where
  | validation
  | notFound
  | persistence
deriving DecidableEq

/-- Classification of each produced error under the taxonomy of the spec. -/
def SubError.class : SubError → ErrClass
  | .notFound _ => ErrClass.notFound
  | _ => ErrClass.validation

/-- A row of the `subscriptions` table: `start_date` / `end_date` are SQL
dates with day 1, `end_date` nullable. -/
structure SubRow where
  id : Int
  serviceName : String
  price : Int
  userId : String
  startDate : MY
  endDate : Option MY
deriving DecidableEq

/-- The database state: the `subscriptions` table plus the id sequence
backing `INSERT ... RETURNING id`. -/
structure Store where
  rows : List SubRow
  nextId : Int
deriving DecidableEq

/-- The id-sequence invariant the database maintains: every stored id was
drawn from the sequence, so it is below the next value. -/
def Store.WF (st : Store) : Prop :=
  ∀ r ∈ st.rows, r.id < st.nextId

/-- The columns of `subscriptions` that UpdateSub can assign. -/
inductive Col where
  | serviceName
  | price
  | userId
  | startDate
  | endDate
deriving DecidableEq

/-- A bound parameter value (the `args` entries of subscriptions.go):
text, integer, date, or SQL NULL. -/
inductive Val where
  | vStr (s : String)
  | vInt (n : Int)
  | vDate (d : MY)
  | vNull
deriving DecidableEq

/-- The database executing one `SET column = $k` assignment on a row.
A type-mismatched pair leaves the row unchanged; `buildUpdateParts`
never produces one. -/
def applyAssign (r : SubRow) : Col × Val → SubRow
  | (Col.serviceName, Val.vStr s) => { r with serviceName := s }
  | (Col.price, Val.vInt n) => { r with price := n }
  | (Col.userId, Val.vStr u) => { r with userId := u }
  | (Col.startDate, Val.vDate d) => { r with startDate := d }
  | (Col.endDate, Val.vDate d) => { r with endDate := some d }
  | (Col.endDate, Val.vNull) => { r with endDate := none }
  | _ => r

/-- The `parts`/`args` construction of `UpdateSub` (subscriptions.go,
lines 84-128): each supplied field is validated and appended, in source
order, as one column-value assignment; the parameter indices `$1..$n`
are represented by the pairing of column with value. -/
def buildUpdateParts (serviceName : Option String) (price : Option Int)
    (userId : Option String) (startDate : Option String) (endDate : Option String) :
    Except SubError (List (Col × Val)) := do
  let p0 : List (Col × Val) :=
    match serviceName with
    | some s => [(Col.serviceName, Val.vStr s)]
    | none => []
  let p1 ← match price with
    | none => pure p0
    | some p =>
      if p < 0 then throw SubError.priceNegative
      else pure (p0 ++ [(Col.price, Val.vInt p)])
  let p2 : List (Col × Val) :=
    match userId with
    | some u => p1 ++ [(Col.userId, Val.vStr u)]
    | none => p1
  let p3 ← match startDate with
    | none => pure p2
    | some s =>
      if s = "" then throw SubError.startDateEmpty
      else
        match parseMY s with
        | none => throw SubError.invalidStartDate
        | some d => pure (p2 ++ [(Col.startDate, Val.vDate d)])
  let p4 ← match endDate with
    | none => pure p3
    | some e =>
      if e = "" then pure (p3 ++ [(Col.endDate, Val.vNull)])
      else
        match parseMY e with
        | none => throw SubError.invalidEndDate
        | some d => pure (p3 ++ [(Col.endDate, Val.vDate d)])
  pure p4

/-- `CreateSub` (subscriptions.go, lines 28-54): validate price and
dates, then `INSERT ... RETURNING id` — the database appends one row
with the next sequence id. -/
def CreateSub (st : Store) (serviceName : String) (price : Int) (userId : String)
    (startDate : String) (endDate : String) : Except SubError (Int × Store) :=
  if price < 0 then Except.error SubError.priceNegative
  else
    match parseMY startDate with
    | none => Except.error SubError.invalidStartDate
    | some start =>
      match (if endDate = "" then Except.ok none
             else match parseMY endDate with
                  | none => Except.error SubError.invalidEndDate
                  | some e => Except.ok (some e) :
             Except SubError (Option MY)) with
      | Except.error e => Except.error e
      | Except.ok endParam =>
        Except.ok (st.nextId,
          { rows := st.rows ++ [⟨st.nextId, serviceName, price, userId, start, endParam⟩],
            nextId := st.nextId + 1 })

/-- `GetSub` (subscriptions.go, lines 56-77): point lookup by id
(`pgx.ErrNoRows` becomes the not-found error), then format the dates,
an absent end date rendering as `""`. -/
def GetSub (st : Store) (id : Int) : Except SubError Subscription :=
  match st.rows.find? (fun r => r.id == id) with
  | none => Except.error (SubError.notFound id)
  | some r =>
    Except.ok ⟨r.id, r.serviceName, r.price, r.userId, formatMY r.startDate,
      match r.endDate with
      | some e => formatMY e
      | none => ""⟩

/-- `UpdateSub` (subscriptions.go, lines 79-141): build the assignment
list, reject an empty one, then execute
`UPDATE subscriptions SET ... WHERE id = $n`. The command tag returned
by `Exec` is discarded (`_`), so the result is success whether or not
any row matched. -/
def UpdateSub (st : Store) (id : Int) (serviceName : Option String) (price : Option Int)
    (userId : Option String) (startDate : Option String) (endDate : Option String) :
    Except SubError Store := do
  let parts ← buildUpdateParts serviceName price userId startDate endDate
  if parts = [] then throw SubError.noFieldsToUpdate
  else
    pure { st with rows := st.rows.map (fun r =>
      if r.id == id then parts.foldl applyAssign r else r) }

/-- `DeleteSub` (subscriptions.go, lines 143-153): execute
`DELETE FROM subscriptions WHERE id = $1` and report not-found exactly
when the command tag says zero rows were affected. -/
def DeleteSub (st : Store) (id : Int) : Except SubError Store :=
  if st.rows.countP (fun r => r.id == id) = 0 then
    Except.error (SubError.notFound id)
  else
    Except.ok { st with rows := st.rows.filter (fun r => !(r.id == id)) }

/-- A conjunct of the WHERE clause `GetTotalCost` assembles; one
constructor per fragment string pushed onto `parts`
(subscriptions.go, lines 191-237). -/
inductive Cond where
  | eqUser (u : String)
  | eqService (s : String)
  | overlap (ps pe : MY)
  | stillActive (ps : MY)
  | startedBy (pe : MY)
deriving DecidableEq

/-- The database evaluating one WHERE fragment against a row:
`overlap ps pe` is `start_date <= $pe AND (end_date IS NULL OR
end_date >= $ps)`, `stillActive ps` is `end_date IS NULL OR end_date >= $ps`,
`startedBy pe` is `start_date <= $pe`. -/
def evalCond (r : SubRow) : Cond → Bool
  | Cond.eqUser u => r.userId == u
  | Cond.eqService s => r.serviceName == s
  | Cond.overlap ps pe =>
    MY.le r.startDate pe &&
      (match r.endDate with
       | none => true
       | some e => MY.le ps e)
  | Cond.stillActive ps =>
    (match r.endDate with
     | none => true
     | some e => MY.le ps e)
  | Cond.startedBy pe => MY.le r.startDate pe

/-- `GetTotalCost` (subscriptions.go, lines 186-250): assemble the
optional filters in source order, validate the period bounds, pick the
period fragment by which bounds are present, and run
`SELECT COALESCE(SUM(price),0) ... WHERE <parts joined with AND>`. -/
def GetTotalCost (st : Store) (userId : Option String) (serviceName : Option String)
    (startDate : Option String) (endDate : Option String) : Except SubError Int := do
  let p0 : List Cond :=
    match userId with
    | some u => [Cond.eqUser u]
    | none => []
  let p1 : List Cond :=
    match serviceName with
    | some s => p0 ++ [Cond.eqService s]
    | none => p0
  let periodStart ← match startDate with
    | none => pure (none : Option MY)
    | some s =>
      if s = "" then throw SubError.startDateEmpty
      else
        match parseMY s with
        | none => throw SubError.invalidStartDate
        | some d => pure (some d)
  let periodEnd ← match endDate with
    | none => pure (none : Option MY)
    | some s =>
      if s = "" then throw SubError.endDateEmpty
      else
        match parseMY s with
        | none => throw SubError.invalidEndDate
        | some d => pure (some d)
  let p2 : List Cond :=
    match periodStart, periodEnd with
    | some ps, some pe => p1 ++ [Cond.overlap ps pe]
    | some ps, none => p1 ++ [Cond.stillActive ps]
    | none, some pe => p1 ++ [Cond.startedBy pe]
    | none, none => p1
  pure ((st.rows.filter (fun r => p2.all (evalCond r))).foldl (fun acc r => acc + r.price) 0)

/-! ## Spec-side definitions

These follow the wording of the specification and are compared with the
behaviour of the definitions above. -/

/-- The inclusion condition the spec states for `TotalCost` with both period
bounds supplied: `subscription.startDate ≤ periodEnd` and
(`subscription.endDate` absent or `subscription.endDate ≥ periodStart`). -/
def includedInPeriod (ps pe : MY) (r : SubRow) : Bool :=
  MY.le r.startDate pe &&
    (match r.endDate with
     | none => true
     | some e => MY.le ps e)

/-- The partial-update effect the spec states on one matched row: exactly the
supplied fields take their supplied values, the rest stay unchanged;
a supplied empty `endDate` clears the field. -/
def updateSpecRow (serviceName : Option String) (price : Option Int)
    (userId : Option String) (startDate : Option String) (endDate : Option String)
    (r : SubRow) : SubRow :=
  { id := r.id
    serviceName := serviceName.getD r.serviceName
    price := price.getD r.price
    userId := userId.getD r.userId
    startDate :=
      match startDate with
      | none => r.startDate
      | some s => (parseMY s).getD r.startDate
    endDate :=
      match endDate with
      | none => r.endDate
      | some e => if e = "" then none else parseMY e }

/-! ## Helper lemmas -/

theorem applyAssign_id (r : SubRow) (a : Col × Val) : (applyAssign r a).id = r.id := by
  rcases a with ⟨c, v⟩
  cases c <;> cases v <;> rfl

theorem foldl_applyAssign_id (parts : List (Col × Val)) (r : SubRow) :
    (parts.foldl applyAssign r).id = r.id := by
  induction parts generalizing r with
  | nil => rfl
  | cons a t ih => rw [List.foldl_cons, ih, applyAssign_id]

/-- Anatomy of a successful `CreateSub`: the validations passed and the
database appended one row carrying the next sequence id. -/
theorem createSub_ok_shape {st : Store} {sn : String} {price : Int} {uid sd ed : String}
    {rid : Int} {st1 : Store}
    (hc : CreateSub st sn price uid sd ed = Except.ok (rid, st1)) :
    rid = st.nextId ∧ 0 ≤ price ∧
      ∃ d e, parseMY sd = some d ∧
        st1 = ⟨st.rows ++ [⟨st.nextId, sn, price, uid, d, e⟩], st.nextId + 1⟩ ∧
        (ed = "" → e = none) ∧
        (ed ≠ "" → ∃ de, parseMY ed = some de ∧ e = some de) := by
  unfold CreateSub at hc
  by_cases hp : price < 0
  · rw [if_pos hp] at hc; cases hc
  rw [if_neg hp] at hc
  rcases hsd : parseMY sd with _ | d
  · rw [hsd] at hc; cases hc
  rw [hsd] at hc
  by_cases hed : ed = ""
  · rw [if_pos hed] at hc
    injection hc with hc1
    injection hc1 with hrid hst
    exact ⟨hrid.symm, by omega, d, none, rfl, hst.symm, fun _ => rfl, fun h => absurd hed h⟩
  · rw [if_neg hed] at hc
    rcases hede : parseMY ed with _ | de
    · rw [hede] at hc; cases hc
    · rw [hede] at hc
      injection hc with hc1
      injection hc1 with hrid hst
      exact ⟨hrid.symm, by omega, d, some de, rfl, hst.symm,
        fun h => absurd h hed, fun _ => ⟨de, rfl, rfl⟩⟩

/-! ## Claims -/

/-- C9: for every valid month-year string in canonical `MM-YYYY` form —
exactly the strings the date parser of the store accepts — parsing it
and then formatting the result with its date formatter yields the
identical string. -/
theorem claim_parse_then_format_identity (s : String) (d : MY)
    (h : parseMY s = some d) : formatMY d = s :=
  formatMY_parseMY h

theorem claim_parse_then_format_identity_witness :
    parseMY "06-2023" = some ⟨6, 2023⟩ ∧ formatMY ⟨6, 2023⟩ = "06-2023" :=
  ⟨by decide, claim_parse_then_format_identity "06-2023" ⟨6, 2023⟩ (by decide)⟩

/-- C7: for every store state and every id, UpdateSub with no field
supplied fails with the "no fields to update" error — a ValidationError
— and performs no write (the error is returned before any statement is
executed). -/
theorem claim_update_no_fields (st : Store) (id : Int) :
    UpdateSub st id none none none none none = Except.error SubError.noFieldsToUpdate ∧
      SubError.noFieldsToUpdate.class = ErrClass.validation :=
  ⟨rfl, rfl⟩

/-- C6: for every negative supplied price, CreateSub and UpdateSub both
fail with the non-negative-price ValidationError; the check runs before
any statement is executed, so no record is inserted or modified (both
functions return the error without producing a new store). -/
theorem claim_negative_price_rejected (st : Store) (id : Int) (price : Int)
    (hp : price < 0) (sn uid sd ed : String)
    (sno uido sdo edo : Option String) :
    CreateSub st sn price uid sd ed = Except.error SubError.priceNegative ∧
      UpdateSub st id sno (some price) uido sdo edo = Except.error SubError.priceNegative ∧
      SubError.priceNegative.class = ErrClass.validation := by
  refine ⟨?_, ?_, rfl⟩
  · unfold CreateSub
    rw [if_pos hp]
  · unfold UpdateSub buildUpdateParts
    rcases sno with _ | s <;>
      simp only [Bind.bind, Except.bind, throw, throwThe, MonadExceptOf.throw, if_pos hp]

theorem claim_negative_price_rejected_witness :
    CreateSub ⟨[], 1⟩ "netflix" (-5) "u1" "01-2024" "" = Except.error SubError.priceNegative ∧
      UpdateSub ⟨[], 1⟩ 1 none (some (-5)) none none none = Except.error SubError.priceNegative ∧
      SubError.priceNegative.class = ErrClass.validation :=
  claim_negative_price_rejected ⟨[], 1⟩ 1 (-5) (by decide) "netflix" "u1" "01-2024" "" none none none none

/-- On valid inputs (price ≥ 0, parseable startDate, empty or parseable
endDate) CreateSub always succeeds, appending one row with the next
sequence id. -/
theorem createSub_ok_of_valid (st : Store) (sn : String) (price : Int) (uid : String)
    (sd ed : String) (d : MY) (hp : 0 ≤ price) (hs : parseMY sd = some d)
    (he : ed = "" ∨ (parseMY ed).isSome) :
    CreateSub st sn price uid sd ed =
      Except.ok (st.nextId,
        { rows := st.rows ++
            [⟨st.nextId, sn, price, uid, d, if ed = "" then none else parseMY ed⟩],
          nextId := st.nextId + 1 }) := by
  unfold CreateSub
  rw [if_neg (not_lt.mpr hp), hs]
  by_cases hed : ed = ""
  · rw [if_pos hed, if_pos hed]
  · rcases hede : parseMY ed with _ | de
    · rcases he with he | he
      · exact absurd he hed
      · rw [hede] at he; cases he
    · rw [if_neg hed, if_neg hed]

/-- C10: CreateSub performs no non-emptiness check on serviceName or
userId: for every price ≥ 0 and parseable startDate (and empty or
parseable endDate), it accepts the empty string for both and inserts
the record exactly as given. -/
theorem claim_create_accepts_empty_service_and_user (st : Store) (price : Int)
    (sd ed : String) (d : MY) (hp : 0 ≤ price) (hs : parseMY sd = some d)
    (he : ed = "" ∨ (parseMY ed).isSome) :
    CreateSub st "" price "" sd ed =
      Except.ok (st.nextId,
        { rows := st.rows ++
            [⟨st.nextId, "", price, "", d, if ed = "" then none else parseMY ed⟩],
          nextId := st.nextId + 1 }) :=
  createSub_ok_of_valid st "" price "" sd ed d hp hs he

theorem claim_create_accepts_empty_service_and_user_witness :
    CreateSub ⟨[], 1⟩ "" 9 "" "01-2024" "" =
      Except.ok (1, ⟨[⟨1, "", 9, "", ⟨1, 2024⟩, none⟩], 2⟩) := by
  rw [claim_create_accepts_empty_service_and_user ⟨[], 1⟩ 9 "01-2024" "" ⟨1, 2024⟩
    (by decide) (by decide) (Or.inl rfl)]
  decide

/-- C1 counterexample: the claim says UpdateSub on a non-matching id
with a validly supplied field fails with NotFoundError; in the code the
command tag of the UPDATE is discarded, so on a store with no record at
all, updating id 42 succeeds. -/
theorem claim_update_missing_id_counterexample :
    UpdateSub ⟨[], 1⟩ 42 (some "netflix") none none none none = Except.ok ⟨[], 1⟩ := by
  decide

/-- C1 (amended): for every id that matches no stored record, UpdateSub
with at least one validly supplied field succeeds — it never inspects
the rows-affected count, produces no NotFoundError, and leaves the
store unchanged. -/
theorem claim_update_missing_id_succeeds (st : Store) (id : Int)
    (sn : Option String) (pr : Option Int) (uid sd ed : Option String)
    (parts : List (Col × Val))
    (hmiss : ∀ r ∈ st.rows, r.id ≠ id)
    (hb : buildUpdateParts sn pr uid sd ed = Except.ok parts)
    (hne : parts ≠ []) :
    UpdateSub st id sn pr uid sd ed = Except.ok st := by
  unfold UpdateSub
  rw [hb]
  simp only [Bind.bind, Except.bind]
  rw [if_neg hne]
  have hmap : st.rows.map (fun r => if r.id == id then parts.foldl applyAssign r else r)
      = st.rows := by
    have h1 : ∀ r ∈ st.rows,
        (if r.id == id then parts.foldl applyAssign r else r) = r := by
      intro r hr
      rw [if_neg (by simp [hmiss r hr])]
    rw [List.map_congr_left h1, List.map_id']
  simp only [Pure.pure, Except.pure, hmap]

theorem claim_update_missing_id_succeeds_witness :
    UpdateSub ⟨[⟨1, "n", 7, "u", ⟨1, 2024⟩, none⟩], 2⟩ 42 (some "x") none none none none =
      Except.ok ⟨[⟨1, "n", 7, "u", ⟨1, 2024⟩, none⟩], 2⟩ :=
  claim_update_missing_id_succeeds ⟨[⟨1, "n", 7, "u", ⟨1, 2024⟩, none⟩], 2⟩ 42
    (some "x") none none none none [(Col.serviceName, Val.vStr "x")]
    (by decide) (by decide) (by decide)

/-- C8: for every id returned by CreateSub, DeleteSub succeeds exactly
once — a second DeleteSub of the same id fails with NotFoundError — and
in general DeleteSub fails with NotFoundError whenever no row matched
the id (zero rows affected). -/
theorem claim_delete_succeeds_exactly_once (st : Store) (hwf : st.WF)
    (sn : String) (price : Int) (uid sd ed : String) (rid : Int) (st1 : Store)
    (hc : CreateSub st sn price uid sd ed = Except.ok (rid, st1)) :
    (∃ st2, DeleteSub st1 rid = Except.ok st2 ∧
        DeleteSub st2 rid = Except.error (SubError.notFound rid)) ∧
      (∀ (s : Store) (i : Int), s.rows.countP (fun r => r.id == i) = 0 →
        DeleteSub s i = Except.error (SubError.notFound i)) ∧
      (SubError.notFound rid).class = ErrClass.notFound := by
  obtain ⟨hrid, -, d, e, -, hst1, -, -⟩ := createSub_ok_shape hc
  subst hrid
  have hcount0 : st.rows.countP (fun r => r.id == st.nextId) = 0 := by
    rw [List.countP_eq_zero]
    intro r hr
    simp only [Bool.not_eq_true, beq_eq_false_iff_ne]
    exact ne_of_lt (hwf r hr)
  have hcount1 : st1.rows.countP (fun r => r.id == st.nextId) = 1 := by
    rw [hst1]
    simp only [List.countP_append, hcount0]
    simp [List.countP_cons]
  refine ⟨⟨{ st1 with rows := st1.rows.filter (fun r => !(r.id == st.nextId)) }, ?_, ?_⟩,
    fun s i h0 => ?_, rfl⟩
  · unfold DeleteSub
    rw [if_neg (by omega)]
  · unfold DeleteSub
    rw [if_pos ?_]
    rw [List.countP_eq_zero]
    intro r hr
    simp only [List.mem_filter] at hr
    simpa using hr.2
  · unfold DeleteSub
    rw [if_pos h0]

theorem claim_delete_succeeds_exactly_once_witness :
    (∃ st2, DeleteSub ⟨[⟨1, "n", 7, "u", ⟨1, 2024⟩, none⟩], 2⟩ 1 = Except.ok st2 ∧
        DeleteSub st2 1 = Except.error (SubError.notFound 1)) ∧
      (∀ (s : Store) (i : Int), s.rows.countP (fun r => r.id == i) = 0 →
        DeleteSub s i = Except.error (SubError.notFound i)) ∧
      (SubError.notFound 1).class = ErrClass.notFound :=
  claim_delete_succeeds_exactly_once ⟨[], 1⟩ (by intro r hr; cases hr)
    "n" 7 "u" "01-2024" "" 1 ⟨[⟨1, "n", 7, "u", ⟨1, 2024⟩, none⟩], 2⟩ (by decide)

/-- Any successful CreateSub followed by GetSub on the returned id
yields a record whose fields equal the input. -/
theorem createSub_getSub_roundtrip (st : Store) (hwf : st.WF)
    (sn : String) (price : Int) (uid sd ed : String) (rid : Int) (st1 : Store)
    (hc : CreateSub st sn price uid sd ed = Except.ok (rid, st1)) :
    GetSub st1 rid = Except.ok ⟨rid, sn, price, uid, sd, ed⟩ := by
  obtain ⟨hrid, -, d, e, hsd, hst1, he1, he2⟩ := createSub_ok_shape hc
  subst hrid
  have hnone : st.rows.find? (fun r => r.id == st.nextId) = none := by
    rw [List.find?_eq_none]
    intro r hr
    simp only [Bool.not_eq_true, beq_eq_false_iff_ne]
    exact ne_of_lt (hwf r hr)
  unfold GetSub
  rw [hst1]
  simp only [List.find?_append, hnone, Option.none_or]
  rw [List.find?_singleton, if_pos (by simp)]
  have hsdeq : formatMY d = sd := formatMY_parseMY hsd
  by_cases hed : ed = ""
  · rw [he1 hed, hed]
    simp [hsdeq]
  · obtain ⟨de, hde, hee⟩ := he2 hed
    rw [hee]
    simp [hsdeq, formatMY_parseMY hde]

/-- C4: for every well-formed store and all valid inputs (price ≥ 0,
parseable startDate, empty or parseable endDate), CreateSub succeeds
and GetSub on the returned id yields a record whose serviceName, price,
userId, startDate and endDate equal the input, with endDate rendered
empty when none was given. -/
theorem claim_create_then_get (st : Store) (hwf : st.WF) (sn : String) (price : Int)
    (uid sd ed : String) (d : MY) (hp : 0 ≤ price) (hsd : parseMY sd = some d)
    (hed : ed = "" ∨ (parseMY ed).isSome) :
    ∃ rid st1, CreateSub st sn price uid sd ed = Except.ok (rid, st1) ∧
      GetSub st1 rid = Except.ok ⟨rid, sn, price, uid, sd, ed⟩ :=
  ⟨st.nextId, _, createSub_ok_of_valid st sn price uid sd ed d hp hsd hed,
    createSub_getSub_roundtrip st hwf sn price uid sd ed st.nextId _
      (createSub_ok_of_valid st sn price uid sd ed d hp hsd hed)⟩

theorem claim_create_then_get_witness :
    ∃ rid st1, CreateSub ⟨[], 1⟩ "netflix" 7 "u1" "06-2023" "03-2024" =
        Except.ok (rid, st1) ∧
      GetSub st1 rid = Except.ok ⟨rid, "netflix", 7, "u1", "06-2023", "03-2024"⟩ :=
  claim_create_then_get ⟨[], 1⟩ (by intro r hr; cases hr) "netflix" 7 "u1"
    "06-2023" "03-2024" ⟨6, 2023⟩ (by decide) (by decide) (Or.inr (by decide))

/-- C5: on every existing record, UpdateSub with endDate supplied as the
empty string clears the end date (the row column `end_date` becomes NULL) and
a subsequent GetSub shows an empty endDate with all other fields
untouched; a non-empty supplied endDate that does not parse as
month-year makes the update fail with the invalid-endDate
ValidationError. -/
theorem claim_update_empty_endDate_clears (st : Store) (id : Int) (sub : Subscription)
    (hg : GetSub st id = Except.ok sub) :
    (∃ st', UpdateSub st id none none none none (some "") = Except.ok st' ∧
      ∃ sub', GetSub st' id = Except.ok sub' ∧ sub'.EndDate = "" ∧
        sub'.ID = sub.ID ∧ sub'.ServiceName = sub.ServiceName ∧
        sub'.Price = sub.Price ∧ sub'.UserID = sub.UserID ∧
        sub'.StartDate = sub.StartDate) ∧
    (∀ e, e ≠ "" → parseMY e = none →
      UpdateSub st id none none none none (some e) = Except.error SubError.invalidEndDate) ∧
    SubError.invalidEndDate.class = ErrClass.validation := by
  unfold GetSub at hg
  rcases hf : st.rows.find? (fun r => r.id == id) with _ | r
  · rw [hf] at hg; cases hg
  rw [hf] at hg
  injection hg with hsub
  refine ⟨⟨{ st with rows := st.rows.map (fun r =>
      if r.id == id then { r with endDate := none } else r) }, rfl,
      ⟨r.id, r.serviceName, r.price, r.userId, formatMY r.startDate, ""⟩, ?_, ?_⟩,
    fun e he hpe => ?_, rfl⟩
  · unfold GetSub
    have hpg : ((fun x : SubRow => x.id == id) ∘
        (fun x : SubRow => if x.id == id then { x with endDate := none } else x)) =
        (fun x : SubRow => x.id == id) := by
      funext x
      by_cases hx : x.id = id
      · simp [hx]
      · simp [hx]
    rw [List.find?_map, hpg, hf]
    have hr : (r.id == id) = true := List.find?_some (p := fun x : SubRow => x.id == id) hf
    have hre : r.id = id := eq_of_beq hr
    simp [hre]
  · rw [← hsub]
    exact ⟨rfl, rfl, rfl, rfl, rfl, rfl⟩
  · have hbuild : buildUpdateParts none none none none (some e) =
        Except.error SubError.invalidEndDate := by
      unfold buildUpdateParts
      simp only [Bind.bind, Except.bind, Pure.pure, Except.pure, throw, throwThe,
        MonadExceptOf.throw]
      rw [if_neg he, hpe]
    unfold UpdateSub
    rw [hbuild]
    rfl

theorem claim_update_empty_endDate_clears_witness :
    (∃ st', UpdateSub ⟨[⟨1, "n", 7, "u", ⟨1, 2024⟩, some ⟨3, 2024⟩⟩], 2⟩ 1
        none none none none (some "") = Except.ok st' ∧
      ∃ sub', GetSub st' 1 = Except.ok sub' ∧ sub'.EndDate = "" ∧
        sub'.ID = (⟨1, "n", 7, "u", "01-2024", "03-2024"⟩ : Subscription).ID ∧
        sub'.ServiceName = (⟨1, "n", 7, "u", "01-2024", "03-2024"⟩ : Subscription).ServiceName ∧
        sub'.Price = (⟨1, "n", 7, "u", "01-2024", "03-2024"⟩ : Subscription).Price ∧
        sub'.UserID = (⟨1, "n", 7, "u", "01-2024", "03-2024"⟩ : Subscription).UserID ∧
        sub'.StartDate = (⟨1, "n", 7, "u", "01-2024", "03-2024"⟩ : Subscription).StartDate) ∧
    (∀ e, e ≠ "" → parseMY e = none →
      UpdateSub ⟨[⟨1, "n", 7, "u", ⟨1, 2024⟩, some ⟨3, 2024⟩⟩], 2⟩ 1
        none none none none (some e) = Except.error SubError.invalidEndDate) ∧
    SubError.invalidEndDate.class = ErrClass.validation :=
  claim_update_empty_endDate_clears ⟨[⟨1, "n", 7, "u", ⟨1, 2024⟩, some ⟨3, 2024⟩⟩], 2⟩ 1
    ⟨1, "n", 7, "u", "01-2024", "03-2024"⟩ (by decide)

/-- C2: for every store and every pair of parseable period bounds,
GetTotalCost with both bounds supplied (and no user/service filter)
sums the price of exactly the rows satisfying the overlap condition of the spec: startDate ≤ periodEnd and (endDate absent or
endDate ≥ periodStart). -/
theorem claim_totalCost_overlap (st : Store) (ps pe : String) (dps dpe : MY)
    (hs : parseMY ps = some dps) (he : parseMY pe = some dpe) :
    GetTotalCost st none none (some ps) (some pe) =
      Except.ok ((st.rows.filter (includedInPeriod dps dpe)).foldl
        (fun acc r => acc + r.price) 0) := by
  have hpsne : ps ≠ "" := by intro h; rw [h] at hs; cases hs
  have hpene : pe ≠ "" := by intro h; rw [h] at he; cases he
  unfold GetTotalCost
  simp only [Bind.bind, Except.bind, Pure.pure, Except.pure]
  rw [if_neg hpsne, hs]
  dsimp only []
  rw [if_neg hpene, he]
  dsimp only []
  simp only [List.nil_append]
  have hcong : ∀ r ∈ st.rows,
      ([Cond.overlap dps dpe].all (evalCond r)) = includedInPeriod dps dpe r := by
    intro r hr
    simp [evalCond, includedInPeriod]
  rw [List.filter_congr hcong]

theorem claim_totalCost_overlap_witness :
    GetTotalCost ⟨[⟨1, "n", 7, "u", ⟨6, 2023⟩, some ⟨3, 2024⟩⟩,
                   ⟨2, "m", 100, "u", ⟨1, 2025⟩, none⟩], 3⟩
      none none (some "01-2024") (some "12-2024") = Except.ok 7 := by
  rw [claim_totalCost_overlap _ "01-2024" "12-2024" ⟨1, 2024⟩ ⟨12, 2024⟩
    (by decide) (by decide)]
  decide

theorem buildUpdateParts_ok_spec (sn : Option String) (pr : Option Int)
    (uid sd ed : Option String) (parts : List (Col × Val))
    (hb : buildUpdateParts sn pr uid sd ed = Except.ok parts) :
    parts.countP (fun a => a.1 == Col.serviceName) = (if sn.isSome then 1 else 0) ∧
    parts.countP (fun a => a.1 == Col.price) = (if pr.isSome then 1 else 0) ∧
    parts.countP (fun a => a.1 == Col.userId) = (if uid.isSome then 1 else 0) ∧
    parts.countP (fun a => a.1 == Col.startDate) = (if sd.isSome then 1 else 0) ∧
    parts.countP (fun a => a.1 == Col.endDate) = (if ed.isSome then 1 else 0) ∧
    ∀ r, parts.foldl applyAssign r = updateSpecRow sn pr uid sd ed r := by
  rcases sn with _ | s <;> rcases pr with _ | p <;> rcases uid with _ | u <;>
    rcases sd with _ | t <;> rcases ed with _ | e <;>
    (unfold buildUpdateParts at hb
     simp only [Bind.bind, Except.bind, Pure.pure, Except.pure, throw, throwThe,
       MonadExceptOf.throw] at hb)
  all_goals repeat' split at hb
  all_goals cases hb
  all_goals refine ⟨rfl, rfl, rfl, rfl, rfl, fun r => ?_⟩
  all_goals simp_all [applyAssign, updateSpecRow]

/-- C3: every successful UpdateSub builds an assignment list with
exactly one assignment per supplied field and none for unsupplied
fields, and executing it changes exactly the supplied columns of the
matched rows to their supplied values (`updateSpecRow`), leaving every
other column and row unchanged. -/
theorem claim_update_changes_exactly_supplied (st : Store) (id : Int)
    (sn : Option String) (pr : Option Int) (uid sd ed : Option String) (st' : Store)
    (h : UpdateSub st id sn pr uid sd ed = Except.ok st') :
    ∃ parts, buildUpdateParts sn pr uid sd ed = Except.ok parts ∧
      parts.countP (fun a => a.1 == Col.serviceName) = (if sn.isSome then 1 else 0) ∧
      parts.countP (fun a => a.1 == Col.price) = (if pr.isSome then 1 else 0) ∧
      parts.countP (fun a => a.1 == Col.userId) = (if uid.isSome then 1 else 0) ∧
      parts.countP (fun a => a.1 == Col.startDate) = (if sd.isSome then 1 else 0) ∧
      parts.countP (fun a => a.1 == Col.endDate) = (if ed.isSome then 1 else 0) ∧
      st'.rows = st.rows.map (fun r =>
        if r.id == id then updateSpecRow sn pr uid sd ed r else r) ∧
      st'.nextId = st.nextId := by
  rcases hb : buildUpdateParts sn pr uid sd ed with e | parts
  · unfold UpdateSub at h
    rw [hb] at h
    simp [Bind.bind, Except.bind] at h
  · obtain ⟨c1, c2, c3, c4, c5, hfold⟩ := buildUpdateParts_ok_spec _ _ _ _ _ _ hb
    unfold UpdateSub at h
    rw [hb] at h
    simp only [Bind.bind, Except.bind] at h
    by_cases hne : parts = []
    · rw [if_pos hne] at h
      simp [throw, throwThe, MonadExceptOf.throw] at h
    · rw [if_neg hne] at h
      simp only [Pure.pure, Except.pure] at h
      injection h with h
      refine ⟨parts, rfl, c1, c2, c3, c4, c5, ?_, ?_⟩
      · rw [← h]
        exact List.map_congr_left (fun r hr => by
          by_cases hid : r.id == id
          · rw [if_pos hid, if_pos hid, hfold r]
          · rw [if_neg hid, if_neg hid])
      · rw [← h]

theorem claim_update_changes_exactly_supplied_witness :
    ∃ parts, buildUpdateParts (some "x") (some 9) none none none = Except.ok parts ∧
      parts.countP (fun a => a.1 == Col.serviceName) =
        (if (some "x" : Option String).isSome then 1 else 0) ∧
      parts.countP (fun a => a.1 == Col.price) =
        (if (some (9 : Int) : Option Int).isSome then 1 else 0) ∧
      parts.countP (fun a => a.1 == Col.userId) =
        (if (none : Option String).isSome then 1 else 0) ∧
      parts.countP (fun a => a.1 == Col.startDate) =
        (if (none : Option String).isSome then 1 else 0) ∧
      parts.countP (fun a => a.1 == Col.endDate) =
        (if (none : Option String).isSome then 1 else 0) ∧
      (⟨[⟨1, "x", 9, "u", ⟨1, 2024⟩, none⟩], 2⟩ : Store).rows =
        (⟨[⟨1, "n", 7, "u", ⟨1, 2024⟩, none⟩], 2⟩ : Store).rows.map (fun r =>
          if r.id == 1 then updateSpecRow (some "x") (some 9) none none none r else r) ∧
      (⟨[⟨1, "x", 9, "u", ⟨1, 2024⟩, none⟩], 2⟩ : Store).nextId =
        (⟨[⟨1, "n", 7, "u", ⟨1, 2024⟩, none⟩], 2⟩ : Store).nextId :=
  claim_update_changes_exactly_supplied ⟨[⟨1, "n", 7, "u", ⟨1, 2024⟩, none⟩], 2⟩ 1
    (some "x") (some 9) none none none ⟨[⟨1, "x", 9, "u", ⟨1, 2024⟩, none⟩], 2⟩
    (by decide)

end Subs
